import Mathlib

/-!
Verification of the pipeline driver in `src/main.py`.

The driver (`go`) selects a subset of a fixed ordered step registry
(`_steps`), sets two environment bindings, opens a temporary run-scope
directory (`tempfile.TemporaryDirectory`), and for each registry step whose
name is in the active set (in registry-list order, as a chain of membership
guards) builds a parameter mapping and delegates to the external step
executor (`mlflow.run`).  A failing executor call raises, aborting the rest
of the chain; the `with` block tears the scope down on both exit paths.

The embedding models the executor as an outcome oracle
`oracle : String → Bool` (success / failure keyed by step name), parameter
mappings as ordered association lists of strings (Python numeric coercions
such as `float(...)`/`int(...)`/`str(...)` are modelled as the identity on
the scalar's rendered value), and the filesystem side effects (the
`rf_config.json` side file, the scope directory removal) as explicit state.
-/

/-- A parameter mapping: ordered key/value pairs, as in the Python dict
literals passed to `mlflow.run` (insertion order preserved). -/
abbrev ParamMap := List (String × String)

/-- One executor invocation, as performed by `mlflow.run(location, "main",
env_manager="conda", parameters=...)` in `src/main.py`. -/
structure Invocation where
  step : String
  location : String
  params : ParamMap
deriving DecidableEq, Repr

/-- The `main:` configuration section fields read by `go`. -/
structure MainSection where
  project_name : String
  experiment_name : String
  steps : String
  components_repository : String
deriving DecidableEq, Repr

/-- The `etl:` configuration section fields read by `go`. -/
structure EtlSection where
  sample : String
  min_price : String
  max_price : String
deriving DecidableEq, Repr

/-- The `data:` configuration section fields read by `go`. -/
structure DataSection where
  raw_artifact : String
deriving DecidableEq, Repr

/-- The `data_check:` configuration section fields read by `go`. -/
structure DataCheckSection where
  kl_threshold : String
deriving DecidableEq, Repr

/-- The `modeling:` configuration section fields read by `go`;
`random_forest_json` is the serialized form of
`json.dump(dict(config["modeling"]["random_forest"].items()), fp)`. -/
structure ModelingSection where
  test_size : String
  random_seed : String
  stratify_by : String
  val_size : String
  max_tfidf_features : String
  random_forest_json : String
deriving DecidableEq, Repr

/-- The run configuration (`config: DictConfig`), restricted to the fields
`go` reads; immutable for the run. -/
structure Config where
  main : MainSection
  etl : EtlSection
  data : DataSection
  data_check : DataCheckSection
  modeling : ModelingSection
deriving DecidableEq, Repr

/-- The step registry, `src/main.py` lines 10-20.  Note the source list
literal DOES contain `"test_regression_model"` (line 19), although the
comment above it (lines 16-18) says it is not included. -/
def _steps : List String :=
  ["download",
   "basic_cleaning",
   "data_check",
   "train_val_test_split",
   "train_random_forest",
   "test_regression_model"]

/-- Helper for `pySplitComma`: split a character list at every comma,
`acc` holding the current token reversed. -/
def splitCommaAux : List Char → List Char → List String
  | [], acc => [String.mk acc.reverse]
  | c :: cs, acc =>
    if c = ',' then String.mk acc.reverse :: splitCommaAux cs []
    else splitCommaAux cs (c :: acc)

/-- Python's `s.split(",")`: split at every comma, keeping empty tokens;
the empty string yields `[""]`. -/
def pySplitComma (s : String) : List String := splitCommaAux s.toList []

/-- Subset resolution, `src/main.py` line 33:
`active_steps = steps_par.split(",") if steps_par != "all" else _steps`. -/
def activeSteps (steps_par : String) : List String :=
  if steps_par = "all" then _steps else pySplitComma steps_par

/-- `os.path.abspath(name)` for a relative `name`, resolved against the
process current working directory (the `with tempfile.TemporaryDirectory()`
block never changes the working directory). -/
def pyAbspath (cwd name : String) : String := cwd ++ "/" ++ name

/-- Parameters of the `download` step, lines 44-49. -/
def downloadParams (cfg : Config) : ParamMap :=
  [("sample", cfg.etl.sample),
   ("artifact_name", "sample.csv"),
   ("artifact_type", "raw_data"),
   ("artifact_description", "Raw file as downloaded")]

/-- Parameters of the `basic_cleaning` step, lines 57-62. -/
def basicCleaningParams (cfg : Config) : ParamMap :=
  [("input_artifact", cfg.data.raw_artifact),
   ("output_artifact", "clean_data.csv"),
   ("output_type", "clean_data"),
   ("output_description", "Cleaned dataset after basic preprocessing")]

/-- Parameters of the `data_check` step, lines 72-79. -/
def dataCheckParams (cfg : Config) : ParamMap :=
  [("csv", "clean_sample.csv:latest"),
   ("ref", "clean_sample.csv:reference"),
   ("kl_threshold", cfg.data_check.kl_threshold),
   ("min_price", cfg.etl.min_price),
   ("max_price", cfg.etl.max_price)]

/-- Parameters of the `train_val_test_split` step, lines 89-94. -/
def trainValTestSplitParams (cfg : Config) : ParamMap :=
  [("input", "clean_sample.csv:latest"),
   ("test_size", cfg.modeling.test_size),
   ("random_seed", cfg.modeling.random_seed),
   ("stratify_by", cfg.modeling.stratify_by)]

/-- Parameters of the `train_random_forest` step, lines 109-124;
`rf_config` is the absolute path of the side file written on lines 101-103. -/
def trainRandomForestParams (cfg : Config) (rf_config : String) : ParamMap :=
  [("trainval_artifact", "trainval_data.csv:latest"),
   ("val_size", cfg.modeling.val_size),
   ("random_seed", cfg.modeling.random_seed),
   ("stratify_by", cfg.modeling.stratify_by),
   ("max_tfidf_features", cfg.modeling.max_tfidf_features),
   ("rf_config", rf_config),
   ("output_artifact", "random_forest_export")]

/-- Parameters of the `test_regression_model` step, lines 134-142. -/
def testRegressionModelParams (_cfg : Config) : ParamMap :=
  [("mlflow_model", "random_forest_export:prod"),
   ("test_dataset", "test_data.csv:latest")]

/-- One entry of the driver's per-step dispatch: the guard name tested
against `active_steps`, the executor location, the parameter mapping, and
the side files written (path, content) just before the executor call. -/
structure StepEntry where
  name : String
  location : String
  params : ParamMap
  sideFiles : List (String × String)
deriving DecidableEq, Repr

/-- The body of `go` (lines 38-145) as a table: the six membership-guarded
`mlflow.run` blocks, in source order.  Only `train_random_forest` writes a
side file: `rf_config.json` at `os.path.abspath("rf_config.json")`, i.e. in
the process current working directory (lines 100-103). -/
def stepTable (cfg : Config) (cwd : String) : List StepEntry :=
  [{ name := "download",
     location := cfg.main.components_repository ++ "/get_data",
     params := downloadParams cfg,
     sideFiles := [] },
   { name := "basic_cleaning",
     location := cfg.main.components_repository ++ "/basic_cleaning",
     params := basicCleaningParams cfg,
     sideFiles := [] },
   { name := "data_check",
     location := cfg.main.components_repository ++ "/data_check",
     params := dataCheckParams cfg,
     sideFiles := [] },
   { name := "train_val_test_split",
     location := cfg.main.components_repository ++ "/train_val_test_split",
     params := trainValTestSplitParams cfg,
     sideFiles := [] },
   { name := "train_random_forest",
     location := "src/train_random_forest",
     params := trainRandomForestParams cfg (pyAbspath cwd "rf_config.json"),
     sideFiles := [(pyAbspath cwd "rf_config.json", cfg.modeling.random_forest_json)] },
   { name := "test_regression_model",
     location := "components/test_regression_model",
     params := testRegressionModelParams cfg,
     sideFiles := [] }]

/-- Run the chain of guarded blocks: for each entry in order, if its name is
in the active set, write its side files and invoke the executor; a failing
call (oracle false) raises, so the rest of the chain is skipped.  Returns
the invocation trace, the files written, and whether the body completed
without a step failure. -/
def runChain (oracle : String → Bool) (active : List String) :
    List StepEntry → List Invocation × List (String × String) × Bool
  | [] => ([], [], true)
  | e :: rest =>
    if e.name ∈ active then
      if oracle e.name then
        let r := runChain oracle active rest
        (⟨e.name, e.location, e.params⟩ :: r.1, e.sideFiles ++ r.2.1, r.2.2)
      else ([⟨e.name, e.location, e.params⟩], e.sideFiles, false)
    else runChain oracle active rest

/-- Specification helper: the names actually executed out of an ordered
name list, stopping at (and including) the first failing one. -/
def runUntilFail (oracle : String → Bool) : List String → List String
  | [] => []
  | s :: rest => if oracle s then s :: runUntilFail oracle rest else [s]

/-- The run-scope filesystem state: whether the temporary directory still
exists, and the files on disk (path, content). -/
structure Scope where
  dirExists : Bool
  files : List (String × String)
deriving DecidableEq, Repr

/-- `strStartsWith s p`: `s` starts with `p` (character-wise).  Used to
decide whether a file path lies under a directory. -/
def strStartsWith (s p : String) : Bool := p.toList.isPrefixOf s.toList

/-- Teardown of the run scope, modelling `TemporaryDirectory.cleanup` /
`__exit__`: if the directory still exists, remove it and every file under
it; a second call finds the directory gone and is a no-op (CPython's
`cleanup` does not raise when the directory was already removed). -/
def teardown (tmp_dir : String) (sc : Scope) : Scope :=
  if sc.dirExists then
    { dirExists := false,
      files := sc.files.filter (fun f => !(strStartsWith f.1 (tmp_dir ++ "/"))) }
  else sc

/-- The two process-environment bindings `go` writes (lines 28-29). -/
structure Env where
  wandb_project : Option String
  wandb_run_group : Option String
deriving DecidableEq, Repr

/-- Observable outcome of one `go` invocation: the executor invocation
trace, whether all invoked steps succeeded, how many times the run scope
was released, the filesystem state after scope teardown, and the
environment bindings after the run returns (or propagates a failure). -/
structure GoResult where
  trace : List Invocation
  ok : Bool
  releaseCount : Nat
  scope : Scope
  env : Env
deriving DecidableEq, Repr

/-- The driver `go` of `src/main.py` (lines 25-145).  `env0` is the
pre-run value of the two environment bindings, `cwd` the process current
working directory, `tmp_dir` the path of the temporary directory created by
`tempfile.TemporaryDirectory()`.  Lines 28-29 overwrite the two bindings
(they are never restored); line 33 resolves the active set; the `with`
block runs the guarded chain and releases the scope exactly once on both
the normal and the exceptional exit. -/
def go (oracle : String → Bool) (cfg : Config) (cwd tmp_dir : String)
    (env0 : Env) : GoResult :=
  let _ := env0
  let env1 : Env := ⟨some cfg.main.project_name, some cfg.main.experiment_name⟩
  let active := activeSteps cfg.main.steps
  match runChain oracle active (stepTable cfg cwd) with
  | (tr, fl, true) =>
    { trace := tr, ok := true, releaseCount := 1,
      scope := teardown tmp_dir ⟨true, fl⟩, env := env1 }
  | (tr, fl, false) =>
    { trace := tr, ok := false, releaseCount := 1,
      scope := teardown tmp_dir ⟨true, fl⟩, env := env1 }

/-- The resolved ordered active set: the registry steps whose name is in
the active token list, in registry order (the order of the guard chain). -/
def resolvedSteps (steps_par : String) : List String :=
  _steps.filter (fun s => s ∈ activeSteps steps_par)

/-- A concrete run configuration used by witnesses and counterexamples
(values as in the repository's `config.yaml` surface). -/
def cfgEx : Config :=
  { main := { project_name := "nyc_airbnb",
              experiment_name := "development",
              steps := "all",
              components_repository := "https://example.com/components" },
    etl := { sample := "sample1.csv", min_price := "10", max_price := "350" },
    data := { raw_artifact := "sample.csv:latest" },
    data_check := { kl_threshold := "0.2" },
    modeling := { test_size := "0.2", random_seed := "42",
                  stratify_by := "neighbourhood_group", val_size := "0.2",
                  max_tfidf_features := "5",
                  random_forest_json := "rf-hyperparameters-json" } }

/-- A concrete pre-run environment used by witnesses and counterexamples. -/
def envEx : Env := ⟨some "prev_project", some "prev_group"⟩

/-- `cfgEx` with the selection expression replaced. -/
def cfgWith (s : String) : Config :=
  { cfgEx with main := { cfgEx.main with steps := s } }

/-- A concrete executor oracle that fails exactly on `data_check`. -/
def oracleEx : String → Bool := fun s => !(s == "data_check")

example : activeSteps "" = [""] := by decide
example : activeSteps "all" = _steps := by rfl
example : activeSteps "All" = ["All"] := by decide
example : resolvedSteps "data_check,download" = ["download", "data_check"] := by decide

/-! ### Helper lemmas -/

/-- The guard names of the dispatch table are exactly the registry, in
registry order. -/
lemma stepTable_names (cfg : Config) (cwd : String) :
    (stepTable cfg cwd).map StepEntry.name = _steps := rfl

/-- When every invoked step succeeds, the chain performs exactly the
invocations of the selected entries in table order, writes exactly their
side files, and completes. -/
lemma runChain_success (oracle : String → Bool) (active : List String)
    (hok : ∀ s, oracle s = true) :
    ∀ table : List StepEntry,
      runChain oracle active table =
        ((table.filter (fun e => e.name ∈ active)).map
          (fun e => ⟨e.name, e.location, e.params⟩),
         ((table.filter (fun e => e.name ∈ active)).map StepEntry.sideFiles).flatten,
         true)
  | [] => by simp [runChain]
  | e :: rest => by
    by_cases h : e.name ∈ active <;>
      simp [runChain, h, hok, runChain_success oracle active hok rest]

/-- The names in the chain's invocation trace are the selected guard names
in table order, truncated at (and including) the first failure. -/
lemma runChain_trace (oracle : String → Bool) (active : List String) :
    ∀ table : List StepEntry,
      (runChain oracle active table).1.map Invocation.step =
        runUntilFail oracle
          ((table.map StepEntry.name).filter (fun s => s ∈ active))
  | [] => by simp [runChain, runUntilFail]
  | e :: rest => by
    by_cases h : e.name ∈ active
    · by_cases ho : oracle e.name <;>
        simp [runChain, h, ho, runUntilFail, runChain_trace oracle active rest]
    · simp [runChain, h, runChain_trace oracle active rest]

/-- With an all-success oracle the whole list runs. -/
lemma runUntilFail_all_true (oracle : String → Bool)
    (hok : ∀ s, oracle s = true) : ∀ L, runUntilFail oracle L = L
  | [] => rfl
  | s :: rest => by simp [runUntilFail, hok, runUntilFail_all_true oracle hok rest]

/-- The executed names form a sublist (hence a prefix) of the input list. -/
lemma runUntilFail_sublist (oracle : String → Bool) :
    ∀ L, List.Sublist (runUntilFail oracle L) L
  | [] => List.Sublist.refl []
  | s :: rest => by
    by_cases ho : oracle s
    · simpa [runUntilFail, ho] using (runUntilFail_sublist oracle rest).cons₂ s
    · simp [runUntilFail, ho]

/-- If the oracle succeeds strictly before position `i` and fails at `i`,
the executed names are exactly the first `i + 1` entries. -/
lemma runUntilFail_eq_take (oracle : String → Bool) :
    ∀ (L : List String) (i : Nat) (hi : i < L.length),
      oracle (L.get ⟨i, hi⟩) = false →
      (∀ j (hj : j < L.length), j < i → oracle (L.get ⟨j, hj⟩) = true) →
      runUntilFail oracle L = L.take (i + 1)
  | [], i, hi => by simp at hi
  | s :: rest, 0, hi => by
    intro hfail _
    simp only [List.get] at hfail
    simp [runUntilFail, hfail]
  | s :: rest, i + 1, hi => by
    intro hfail hpre
    have hs : oracle s = true := hpre 0 (Nat.succ_pos _) (Nat.succ_pos _)
    have ih := runUntilFail_eq_take oracle rest i (Nat.lt_of_succ_lt_succ hi)
      hfail (fun j hj hji => hpre (j + 1) (Nat.succ_lt_succ hj) (Nat.succ_lt_succ hji))
    simp [runUntilFail, hs, List.take_succ_cons, ih]

/-- `go` in terms of `runChain`: trace and completion flag come from the
chain, the scope is torn down exactly once on both exit paths, and the
environment bindings hold the configuration-derived values. -/
lemma go_eq (oracle : String → Bool) (cfg : Config) (cwd tmp_dir : String)
    (env0 : Env) :
    go oracle cfg cwd tmp_dir env0 =
      { trace := (runChain oracle (activeSteps cfg.main.steps) (stepTable cfg cwd)).1,
        ok := (runChain oracle (activeSteps cfg.main.steps) (stepTable cfg cwd)).2.2,
        releaseCount := 1,
        scope := teardown tmp_dir
          ⟨true, (runChain oracle (activeSteps cfg.main.steps) (stepTable cfg cwd)).2.1⟩,
        env := ⟨some cfg.main.project_name, some cfg.main.experiment_name⟩ } := by
  unfold go
  rcases h : runChain oracle (activeSteps cfg.main.steps) (stepTable cfg cwd)
    with ⟨tr, fl, ok⟩
  cases ok <;> simp [h]

/-- The step names of a `go` trace: the resolved ordered active set,
truncated at the first failing step. -/
lemma go_trace_names (oracle : String → Bool) (cfg : Config)
    (cwd tmp_dir : String) (env0 : Env) :
    (go oracle cfg cwd tmp_dir env0).trace.map Invocation.step =
      runUntilFail oracle (resolvedSteps cfg.main.steps) := by
  rw [go_eq]
  simpa [resolvedSteps, stepTable_names] using
    runChain_trace oracle (activeSteps cfg.main.steps) (stepTable cfg cwd)

/-- The registry has no duplicate names. -/
lemma _steps_nodup : _steps.Nodup := by decide

/-- The resolved active set has no duplicate names. -/
lemma resolvedSteps_nodup (steps_par : String) :
    (resolvedSteps steps_par).Nodup :=
  _steps_nodup.filter _

/-! ### Claim theorems -/

/-- C1: evaluation at the failing input.  With the sentinel selection
"all", the resolved active set is the whole `_steps` list — which, in the
source, contains `"test_regression_model"` (line 19), contradicting the
comment on lines 16-18 — so the manually-gated step's executor IS invoked
under the sentinel, as the sixth invocation. -/
theorem c1_sentinel_runs_gated_step :
    ((go (fun _ => true) cfgEx "/work" "/tmp/run" envEx).trace.map
        Invocation.step)
      = ["download", "basic_cleaning", "data_check", "train_val_test_split",
         "train_random_forest", "test_regression_model"] := by decide

/-- C2 counterexample: selecting `"not_a_step,download"` (a selection
containing an unknown token) does not fail with any error before executor
invocations: the `download` executor is invoked and the run completes. -/
theorem c2_unknown_token_no_error :
    ((go (fun _ => true) (cfgWith "not_a_step,download") "/work" "/tmp/run"
        envEx).trace.map Invocation.step = ["download"]) ∧
    (go (fun _ => true) (cfgWith "not_a_step,download") "/work" "/tmp/run"
        envEx).ok = true := by decide

/-- C2 amended: a selection token not present in the registry is silently
ignored — the driver raises no ConfigurationError, never invokes an
executor for an unknown token, and the registry steps named by the other
tokens still run, in registry order. -/
theorem c2_amended_silent_ignore (oracle : String → Bool) (cfg : Config)
    (cwd tmp_dir : String) (env0 : Env) (hok : ∀ s, oracle s = true) :
    (go oracle cfg cwd tmp_dir env0).ok = true ∧
    (go oracle cfg cwd tmp_dir env0).trace.map Invocation.step
      = resolvedSteps cfg.main.steps ∧
    ∀ t ∈ activeSteps cfg.main.steps, t ∉ _steps →
      t ∉ (go oracle cfg cwd tmp_dir env0).trace.map Invocation.step := by
  have htr : (go oracle cfg cwd tmp_dir env0).trace.map Invocation.step
      = resolvedSteps cfg.main.steps := by
    rw [go_trace_names, runUntilFail_all_true oracle hok]
  refine ⟨?_, htr, ?_⟩
  · rw [go_eq]
    simp [runChain_success oracle (activeSteps cfg.main.steps) hok]
  · intro t _ h2
    rw [htr]
    intro hmem
    exact h2 (List.mem_of_mem_filter hmem)

/-- C2 amended, witness at the unknown-token selection. -/
theorem c2_amended_silent_ignore_witness :
    (go (fun _ => true) (cfgWith "not_a_step,download") "/work" "/tmp/run"
        envEx).ok = true ∧
    "not_a_step" ∉ ((go (fun _ => true) (cfgWith "not_a_step,download")
        "/work" "/tmp/run" envEx).trace.map Invocation.step) := by
  have h := c2_amended_silent_ignore (fun _ => true)
    (cfgWith "not_a_step,download") "/work" "/tmp/run" envEx (fun _ => rfl)
  exact ⟨h.1, h.2.2 "not_a_step" (by decide) (by decide)⟩

/-- C3: for a selection expression that is not the sentinel and names only
registry steps, a run whose steps all succeed invokes the executor for
exactly the steps named, in registry order (not in the order listed). -/
theorem c3_subset_registry_order (oracle : String → Bool) (cfg : Config)
    (cwd tmp_dir : String) (env0 : Env)
    (hne : cfg.main.steps ≠ "all")
    (hsub : ∀ t ∈ pySplitComma cfg.main.steps, t ∈ _steps)
    (hok : ∀ s, oracle s = true) :
    ((go oracle cfg cwd tmp_dir env0).trace.map Invocation.step
      = _steps.filter (fun s => s ∈ pySplitComma cfg.main.steps)) ∧
    (∀ t, t ∈ (go oracle cfg cwd tmp_dir env0).trace.map Invocation.step
      ↔ t ∈ pySplitComma cfg.main.steps) := by
  have htr : (go oracle cfg cwd tmp_dir env0).trace.map Invocation.step
      = _steps.filter (fun s => s ∈ pySplitComma cfg.main.steps) := by
    rw [go_trace_names, runUntilFail_all_true oracle hok]
    simp [resolvedSteps, activeSteps, hne]
  refine ⟨htr, fun t => ?_⟩
  rw [htr]
  simp only [List.mem_filter, decide_eq_true_eq]
  exact ⟨fun h => h.2, fun h => ⟨hsub t h, h⟩⟩

/-- C3, witness: selecting `"data_check,download"` executes `download`
before `data_check`. -/
theorem c3_subset_registry_order_witness :
    (go (fun _ => true) (cfgWith "data_check,download") "/work" "/tmp/run"
        envEx).trace.map Invocation.step = ["download", "data_check"] := by
  have h := c3_subset_registry_order (fun _ => true)
    (cfgWith "data_check,download") "/work" "/tmp/run" envEx
    (by decide) (by decide) (fun _ => rfl)
  exact h.1.trans (by decide)

/-- Projection helper: the trace of `go`. -/
lemma go_trace (oracle : String → Bool) (cfg : Config) (cwd tmp_dir : String)
    (env0 : Env) :
    (go oracle cfg cwd tmp_dir env0).trace
      = (runChain oracle (activeSteps cfg.main.steps) (stepTable cfg cwd)).1 := by
  rw [go_eq]

/-- Projection helper: the scope of `go` after teardown. -/
lemma go_scope (oracle : String → Bool) (cfg : Config) (cwd tmp_dir : String)
    (env0 : Env) :
    (go oracle cfg cwd tmp_dir env0).scope
      = teardown tmp_dir
          ⟨true, (runChain oracle (activeSteps cfg.main.steps)
                    (stepTable cfg cwd)).2.1⟩ := by
  rw [go_eq]

/-- C4: if the executor fails at position `i` of the resolved ordered
active set (and succeeds strictly before it), then the invocation trace is
exactly the first `i + 1` resolved steps: steps after position `i` are
never invoked, and every step at position `≤ i` is invoked exactly once. -/
theorem c4_fail_fast (oracle : String → Bool) (cfg : Config)
    (cwd tmp_dir : String) (env0 : Env) (i : Nat)
    (hi : i < (resolvedSteps cfg.main.steps).length)
    (hfail : oracle ((resolvedSteps cfg.main.steps).get ⟨i, hi⟩) = false)
    (hpre : ∀ j (hj : j < (resolvedSteps cfg.main.steps).length), j < i →
      oracle ((resolvedSteps cfg.main.steps).get ⟨j, hj⟩) = true) :
    ((go oracle cfg cwd tmp_dir env0).trace.map Invocation.step
        = (resolvedSteps cfg.main.steps).take (i + 1)) ∧
    (∀ j (hj : j < (resolvedSteps cfg.main.steps).length), i < j →
      (resolvedSteps cfg.main.steps).get ⟨j, hj⟩
        ∉ (go oracle cfg cwd tmp_dir env0).trace.map Invocation.step) ∧
    (∀ j (hj : j < (resolvedSteps cfg.main.steps).length), j ≤ i →
      ((go oracle cfg cwd tmp_dir env0).trace.map Invocation.step).count
        ((resolvedSteps cfg.main.steps).get ⟨j, hj⟩) = 1) := by
  have hnd : (resolvedSteps cfg.main.steps).Nodup :=
    resolvedSteps_nodup cfg.main.steps
  have htr : (go oracle cfg cwd tmp_dir env0).trace.map Invocation.step
      = (resolvedSteps cfg.main.steps).take (i + 1) := by
    rw [go_trace_names]
    exact runUntilFail_eq_take oracle (resolvedSteps cfg.main.steps) i hi hfail hpre
  refine ⟨htr, ?_, ?_⟩
  · intro j hj hij
    rw [htr]
    intro hmem
    obtain ⟨k, hk, hke⟩ := List.mem_iff_getElem.1 hmem
    have hkk : k < i + 1 := lt_of_lt_of_le hk
      (by rw [List.length_take]; exact min_le_left _ _)
    simp only [List.getElem_take, List.get_eq_getElem] at hke
    have : k = j := hnd.getElem_inj_iff.1 hke
    omega
  · intro j hj hji
    rw [htr]
    have hjt : j < ((resolvedSteps cfg.main.steps).take (i + 1)).length := by
      rw [List.length_take]
      exact Nat.lt_min.2 ⟨Nat.lt_succ_of_le hji, hj⟩
    have h1 : ((resolvedSteps cfg.main.steps).take (i + 1)).get ⟨j, hjt⟩
        ∈ (resolvedSteps cfg.main.steps).take (i + 1) := List.get_mem _ _ _
    have h2 : ((resolvedSteps cfg.main.steps).take (i + 1)).get ⟨j, hjt⟩
        = (resolvedSteps cfg.main.steps).get ⟨j, hj⟩ := by
      simp [List.get_eq_getElem]
    have hnd' : ((resolvedSteps cfg.main.steps).take (i + 1)).Nodup :=
      (List.take_sublist _ _).nodup hnd
    exact List.count_eq_one_of_mem hnd' (h2 ▸ h1)

/-- C4, witness: under the sentinel, with the executor failing at
`data_check` (position 2), exactly the first three steps are invoked. -/
theorem c4_fail_fast_witness :
    (2 < (resolvedSteps cfgEx.main.steps).length) ∧
    ((go oracleEx cfgEx "/work" "/tmp/run" envEx).trace.map Invocation.step
        = (resolvedSteps cfgEx.main.steps).take 3) :=
  ⟨by decide,
   (c4_fail_fast oracleEx cfgEx "/work" "/tmp/run" envEx 2
      (by decide) (by decide) (by decide)).1⟩

/-- C5 counterexample: with the training step selected, working directory
`/work` and run-scope directory `/tmp/run`, the hyperparameter side file is
written at `/work/rf_config.json` — not inside the run scope's directory —
and it is still on disk after the run scope is torn down (the claim says it
is written into the scope directory and removed with the scope). -/
theorem c5_side_file_outside_scope :
    (strStartsWith "/work/rf_config.json" "/tmp/run/" = false) ∧
    (("/work/rf_config.json",
        (cfgWith "train_random_forest").modeling.random_forest_json)
      ∈ (go (fun _ => true) (cfgWith "train_random_forest") "/work"
          "/tmp/run" envEx).scope.files) ∧
    (∃ inv ∈ (go (fun _ => true) (cfgWith "train_random_forest") "/work"
        "/tmp/run" envEx).trace,
      inv.step = "train_random_forest" ∧
      ("rf_config", "/work/rf_config.json") ∈ inv.params) := by decide

/-- C5 amended: when the training step is selected (and reached), the
hyperparameter side file is written at `cwd/rf_config.json` — the process
current working directory, not the run-scope directory — before the
executor call; its absolute path is passed as the `rf_config` parameter
value; and whenever that path is not under the run-scope directory, the
file survives the run scope's teardown instead of being removed with it. -/
theorem c5_amended_side_file (oracle : String → Bool) (cfg : Config)
    (cwd tmp_dir : String) (env0 : Env)
    (hsel : "train_random_forest" ∈ activeSteps cfg.main.steps)
    (hok : ∀ s, oracle s = true)
    (hnp : strStartsWith (pyAbspath cwd "rf_config.json") (tmp_dir ++ "/")
      = false) :
    (Invocation.mk "train_random_forest" "src/train_random_forest"
        (trainRandomForestParams cfg (pyAbspath cwd "rf_config.json"))
      ∈ (go oracle cfg cwd tmp_dir env0).trace) ∧
    (("rf_config", pyAbspath cwd "rf_config.json")
      ∈ trainRandomForestParams cfg (pyAbspath cwd "rf_config.json")) ∧
    ((pyAbspath cwd "rf_config.json", cfg.modeling.random_forest_json)
      ∈ (go oracle cfg cwd tmp_dir env0).scope.files) := by
  have hrc := runChain_success oracle (activeSteps cfg.main.steps) hok
    (stepTable cfg cwd)
  have he : ({ name := "train_random_forest",
               location := "src/train_random_forest",
               params := trainRandomForestParams cfg (pyAbspath cwd "rf_config.json"),
               sideFiles := [(pyAbspath cwd "rf_config.json",
                              cfg.modeling.random_forest_json)] } : StepEntry)
      ∈ (stepTable cfg cwd).filter
          (fun e => e.name ∈ activeSteps cfg.main.steps) := by
    refine List.mem_filter.2 ⟨?_, ?_⟩
    · simp [stepTable]
    · simpa using hsel
  refine ⟨?_, ?_, ?_⟩
  · rw [go_trace, hrc]
    exact List.mem_map_of_mem _ he
  · simp [trainRandomForestParams]
  · rw [go_scope, hrc]
    simp only [teardown, if_pos]
    refine List.mem_filter.2 ⟨?_, ?_⟩
    · exact List.mem_flatten.2
        ⟨_, List.mem_map_of_mem StepEntry.sideFiles he, by simp⟩
    · simp [hnp]

/-- C5 amended, witness at a concrete working directory and scope path. -/
theorem c5_amended_side_file_witness :
    ("train_random_forest"
        ∈ activeSteps (cfgWith "train_random_forest").main.steps) ∧
    ((pyAbspath "/work" "rf_config.json",
        (cfgWith "train_random_forest").modeling.random_forest_json)
      ∈ (go (fun _ => true) (cfgWith "train_random_forest") "/work"
          "/tmp/run" envEx).scope.files) :=
  ⟨by decide,
   (c5_amended_side_file (fun _ => true) (cfgWith "train_random_forest")
      "/work" "/tmp/run" envEx (by decide) (fun _ => rfl) (by decide)).2.2⟩

/-- C6 counterexample: the two environment bindings are NOT restored to
their pre-run values — after a run they hold the configuration-derived
values, differing from the pre-run environment. -/
theorem c6_env_not_restored :
    (go (fun _ => true) cfgEx "/work" "/tmp/run" envEx).env ≠ envEx := by
  decide

/-- C6 amended: on every exit path the run scope's working directory is
removed, and the two environment bindings hold the configuration-derived
values (project identity, experiment/group identity); the code never
restores them to their pre-run values. -/
theorem c6_amended_scope_release (oracle : String → Bool) (cfg : Config)
    (cwd tmp_dir : String) (env0 : Env) :
    ((go oracle cfg cwd tmp_dir env0).scope.dirExists = false) ∧
    ((go oracle cfg cwd tmp_dir env0).env
      = ⟨some cfg.main.project_name, some cfg.main.experiment_name⟩) := by
  rw [go_eq]
  exact ⟨by simp [teardown], rfl⟩

/-- C7: the run scope is released exactly once on both the success and the
failure terminal path (the `with` block's single teardown, counted by
`releaseCount`, leaves the directory removed for every oracle), and the
teardown is idempotent: tearing an already-released scope down again
changes nothing and raises nothing (it is a total no-op). -/
theorem c7_release_once_idempotent (oracle : String → Bool) (cfg : Config)
    (cwd tmp_dir : String) (env0 : Env) :
    ((go oracle cfg cwd tmp_dir env0).releaseCount = 1) ∧
    ((go oracle cfg cwd tmp_dir env0).scope.dirExists = false) ∧
    (∀ sc : Scope, teardown tmp_dir (teardown tmp_dir sc)
      = teardown tmp_dir sc) := by
  refine ⟨by rw [go_eq], by rw [go_eq]; simp [teardown], fun sc => ?_⟩
  by_cases h : sc.dirExists <;> simp [teardown, h]

/-- C8: the executor invocation sequence — step names, locations and full
parameter mappings — is a deterministic function of the configuration,
selection and working directory: two runs differing only in their run-scope
directory and pre-run environment produce identical traces (no parameter
value is derived from the per-run scope location). -/
theorem c8_params_deterministic (oracle : String → Bool) (cfg : Config)
    (cwd : String) (tmp_dir1 tmp_dir2 : String) (env1 env2 : Env) :
    (go oracle cfg cwd tmp_dir1 env1).trace
      = (go oracle cfg cwd tmp_dir2 env2).trace := by
  rw [go_trace, go_trace]

/-- C9: every step's executor is invoked at most once per run, for every
selection expression and oracle — in particular a duplicated token, such as
the selection `"download,download"`, still runs its step only once. -/
theorem c9_at_most_once (oracle : String → Bool) (cfg : Config)
    (cwd tmp_dir : String) (env0 : Env) (s : String) :
    (((go oracle cfg cwd tmp_dir env0).trace.map Invocation.step).count s
        ≤ 1) ∧
    ((go (fun _ => true) (cfgWith "download,download") cwd tmp_dir
        env0).trace.map Invocation.step = ["download"]) := by
  constructor
  · rw [go_trace_names]
    exact le_trans ((runUntilFail_sublist oracle _).count_le s)
      (List.nodup_iff_count_le_one.1 (resolvedSteps_nodup _) s)
  · rw [go_trace_names, runUntilFail_all_true _ (fun _ => rfl)]
    decide

/-- C10: the sentinel is recognized only by exact string equality with
`"all"`; every other selection string is comma-split into tokens — so
`"All"` and `" all"` select no registry step, and the empty string splits
to `[""]`, resolving to no registry step: the run invokes no executor and
raises no error. -/
theorem c10_sentinel_exact_match :
    (activeSteps "all" = _steps) ∧
    (∀ s : String, s ≠ "all" → activeSteps s = pySplitComma s) ∧
    ((go (fun _ => true) (cfgWith "") "/work" "/tmp/run" envEx).trace = []
      ∧ (go (fun _ => true) (cfgWith "") "/work" "/tmp/run" envEx).ok
        = true) ∧
    ((go (fun _ => true) (cfgWith "All") "/work" "/tmp/run" envEx).trace
      = []) ∧
    ((go (fun _ => true) (cfgWith " all") "/work" "/tmp/run" envEx).trace
      = []) := by
  refine ⟨rfl, fun s h => by simp [activeSteps, h], ⟨by decide, by decide⟩,
    by decide, by decide⟩

/-- C10, witness: a non-sentinel string is comma-split. -/
theorem c10_sentinel_exact_match_witness :
    ("All" ≠ "all") ∧ activeSteps "All" = pySplitComma "All" :=
  ⟨by decide, c10_sentinel_exact_match.2.1 "All" (by decide)⟩
